import Mathlib

/-!
A verification development for the `codebase-to-prompt` repository.

The core under study is `scrape_api_only_PYTHON.py`: it parses one Python
source file into an AST, removes docstrings, replaces function bodies with a
single `pass` statement, and serializes the tree back over the original file.
The two directory-flattener scripts (`app.py`, `files_only.py`) are modelled
for their argument handling and walk/filter logic.

The Python AST fragment relevant to the scripts is embedded shallowly:
`Expr`/`Stmt`/`PyModule` mirror the node kinds the code inspects
(`ast.FunctionDef`, `ast.AsyncFunctionDef`, `ast.ClassDef`, `ast.Expr`,
`ast.Pass`, plus representative simple and compound statements `return`,
assignment and `if`, through which the generic visitors recurse).  Machine
strings are Lean `String`s, statement sequences are Lean lists mutated by
explicit rebuilding instead of in place.
-/

/-- Python expressions, as far as the scripts inspect them: the docstring test
`isinstance(node.body[0].value, ast.Str)` needs string constants to be
distinguishable from every other expression; the remaining constructors are
representative expression shapes (names, integer constants, additions, calls)
that all passes leave untouched. -/
inductive Expr where
  | name (id : String)
  | constStr (s : String)
  | constInt (n : Int)
  | add (l r : Expr)
  | call (f : Expr) (args : List Expr)

/-- Python statements, as far as the scripts inspect them.  `functionDef`,
`asyncFunctionDef` and `classDef` carry the fields the code reads or rewrites
(name, arguments or bases, body, decorator list); `exprStmt` is `ast.Expr`
(an expression used as a statement — a docstring is `exprStmt (constStr _)` in
first position of a body); `ifStmt` is a representative compound statement
with nested statement lists through which `ast.NodeTransformer.generic_visit`
and `ast.iter_child_nodes` recurse; `ret`, `assign` and `pass` are
representative simple statements. -/
inductive Stmt where
  | functionDef (name : String) (args : List String) (body : List Stmt) (decorators : List Expr)
  | asyncFunctionDef (name : String) (args : List String) (body : List Stmt) (decorators : List Expr)
  | classDef (name : String) (bases : List Expr) (body : List Stmt) (decorators : List Expr)
  | ret (value : Option Expr)
  | assign (target : String) (value : Expr)
  | exprStmt (value : Expr)
  | ifStmt (test : Expr) (body : List Stmt) (orelse : List Stmt)
  | pass

/-- A parsed Python module: `ast.Module` with its list of body statements. -/
structure PyModule where
  body : List Stmt

/-- The test on line 29 of `scrape_api_only_PYTHON.py`:
`isinstance(node.body[0], ast.Expr) and isinstance(node.body[0].value, ast.Str)`
— an expression statement whose value is a string constant. -/
def isDocstring : Stmt → Bool
  | .exprStmt (.constStr _) => true
  | _ => false

/-- `isinstance(child, (ast.FunctionDef, ast.AsyncFunctionDef))`, the guard in
`FunctionBodyRemover.visit_ClassDef`. -/
def isFunctionOrAsync : Stmt → Bool
  | .functionDef _ _ _ _ => true
  | .asyncFunctionDef _ _ _ _ => true
  | _ => false

mutual

/-- The `remove_docstrings` helper of `remove_comments_docstrings_and_bodies`:
on a docstring owner (`ast.FunctionDef`, `ast.AsyncFunctionDef`,
`ast.ClassDef`, `ast.Module`) it pops the body's first statement when that is
an expression statement holding a string constant, then recurses into every
child node (`ast.iter_child_nodes`); on every other node it just recurses.
Recursion into expressions is dropped here because it never changes them. -/
def remove_docstrings : Stmt → Stmt
  | .functionDef name args body decorators =>
      .functionDef name args (removeDocstringsBody body) decorators
  | .asyncFunctionDef name args body decorators =>
      .asyncFunctionDef name args (removeDocstringsBody body) decorators
  | .classDef name bases body decorators =>
      .classDef name bases (removeDocstringsBody body) decorators
  | .ifStmt test body orelse =>
      .ifStmt test (removeDocstringsList body) (removeDocstringsList orelse)
  | s => s

/-- `remove_docstrings` acting on a docstring owner's body:
`node.body.pop(0)` when the first statement is a docstring, followed by the
recursion into the remaining children. -/
def removeDocstringsBody : List Stmt → List Stmt
  | [] => []
  | s :: rest =>
      if isDocstring s then removeDocstringsList rest
      else remove_docstrings s :: removeDocstringsList rest

/-- `remove_docstrings` mapped over a list of child statements that is not a
docstring owner's body (for example the branches of an `if`). -/
def removeDocstringsList : List Stmt → List Stmt
  | [] => []
  | s :: rest => remove_docstrings s :: removeDocstringsList rest

end

mutual

/-- `FunctionBodyRemover().visit` (an `ast.NodeTransformer`):
`visit_FunctionDef` and `visit_AsyncFunctionDef` replace the whole body with
`[ast.Pass()]` and return without recursing further; `visit_ClassDef` rebuilds
the class body by visiting exactly the immediate children that are function or
coroutine definitions and keeping every other child as is; every other node
kind falls back to `generic_visit`, which visits all child statements. -/
def FunctionBodyRemover_visit : Stmt → Stmt
  | .functionDef name args _ decorators => .functionDef name args [.pass] decorators
  | .asyncFunctionDef name args _ decorators => .asyncFunctionDef name args [.pass] decorators
  | .classDef name bases body decorators =>
      .classDef name bases (FunctionBodyRemover_classBody body) decorators
  | .ifStmt test body orelse =>
      .ifStmt test (FunctionBodyRemover_visitList body) (FunctionBodyRemover_visitList orelse)
  | s => s

/-- The list comprehension in `visit_ClassDef`:
`[self.visit(child) if isinstance(child, (FunctionDef, AsyncFunctionDef)) else child
  for child in node.body]`. -/
def FunctionBodyRemover_classBody : List Stmt → List Stmt
  | [] => []
  | child :: rest =>
      (if isFunctionOrAsync child then FunctionBodyRemover_visit child else child)
        :: FunctionBodyRemover_classBody rest

/-- `generic_visit` recursing over a list of child statements. -/
def FunctionBodyRemover_visitList : List Stmt → List Stmt
  | [] => []
  | s :: rest => FunctionBodyRemover_visit s :: FunctionBodyRemover_visitList rest

end

/-- `remove_docstrings(parsed_ast)` at the module root: the module is itself a
docstring owner, so its leading docstring is popped before the recursion into
the module's children. -/
def removeDocstringsModule (m : PyModule) : PyModule :=
  ⟨removeDocstringsBody m.body⟩

/-- `FunctionBodyRemover().visit(parsed_ast)` at the module root: there is no
`visit_Module`, so `generic_visit` visits each top-level statement. -/
def FunctionBodyRemoverModule (m : PyModule) : PyModule :=
  ⟨FunctionBodyRemover_visitList m.body⟩

/-- The tree-to-tree core of `remove_comments_docstrings_and_bodies`: the
docstring-removal pass followed by the body-replacement pass, between
`ast.parse` and `ast.unparse`. -/
def remove_comments_docstrings_and_bodies_ast (m : PyModule) : PyModule :=
  FunctionBodyRemoverModule (removeDocstringsModule m)

/-- Four spaces of indentation per block level, as `ast._Unparser` writes. -/
def indentStr (n : Nat) : String := String.mk (List.replicate (4 * n) ' ')

mutual

/-- `ast.unparse` on the expression fragment.  String constants are written in
single quotes as `repr` does; additions are written flat, which is the
canonical form for the precedence-free shapes in this fragment. -/
def exprToString : Expr → String
  | .name id => id
  | .constStr s => "\x27" ++ s ++ "\x27"
  | .constInt n => toString n
  | .add l r => exprToString l ++ " + " ++ exprToString r
  | .call f args => exprToString f ++ "(" ++ exprArgsToString args ++ ")"

/-- Comma-separated rendering of an argument list. -/
def exprArgsToString : List Expr → String
  | [] => ""
  | [e] => exprToString e
  | e :: rest => exprToString e ++ ", " ++ exprArgsToString rest

end

/-- Decorator lines: one `@expr` line per decorator, as `ast._Unparser`
emits above a `def`, `async def` or `class` header. -/
def decoratorLines (ind : Nat) (decorators : List Expr) : List String :=
  decorators.map (fun d => indentStr ind ++ "@" ++ exprToString d)

mutual

/-- `ast.unparse` on the statement fragment, producing the output lines: the
header line of a definition (decorators first), then the body one level
deeper; `elif` collapsing for an `if` whose `orelse` is a single `if`, as in
`ast._Unparser.visit_If`.  An empty body block emits no lines at all — which
is how `ast.unparse` serializes a tree whose block was emptied, producing a
header with no indented block under it. -/
def unparseStmt (ind : Nat) : Stmt → List String
  | .functionDef name args body decorators =>
      decoratorLines ind decorators
        ++ [indentStr ind ++ "def " ++ name ++ "(" ++ String.intercalate ", " args ++ "):"]
        ++ unparseBlock (ind + 1) body
  | .asyncFunctionDef name args body decorators =>
      decoratorLines ind decorators
        ++ [indentStr ind ++ "async def " ++ name ++ "(" ++ String.intercalate ", " args ++ "):"]
        ++ unparseBlock (ind + 1) body
  | .classDef name bases body decorators =>
      decoratorLines ind decorators
        ++ [indentStr ind ++ "class " ++ name
              ++ (if bases.isEmpty then "" else "(" ++ exprArgsToString bases ++ ")") ++ ":"]
        ++ unparseBlock (ind + 1) body
  | .ret none => [indentStr ind ++ "return"]
  | .ret (some e) => [indentStr ind ++ "return " ++ exprToString e]
  | .assign target e => [indentStr ind ++ target ++ " = " ++ exprToString e]
  | .exprStmt e => [indentStr ind ++ exprToString e]
  | .pass => [indentStr ind ++ "pass"]
  | .ifStmt test body orelse =>
      [indentStr ind ++ "if " ++ exprToString test ++ ":"]
        ++ unparseBlock (ind + 1) body ++ unparseOrelse ind orelse

/-- The lines of a block: each statement's lines in order. -/
def unparseBlock (ind : Nat) : List Stmt → List String
  | [] => []
  | s :: rest => unparseStmt ind s ++ unparseBlock ind rest

/-- The `orelse` rendering of `ast._Unparser.visit_If`: nothing when empty,
`elif` when the `orelse` is exactly one nested `if`, a dedented `else:` block
otherwise. -/
def unparseOrelse (ind : Nat) : List Stmt → List String
  | [] => []
  | [.ifStmt test body orelse] =>
      [indentStr ind ++ "elif " ++ exprToString test ++ ":"]
        ++ unparseBlock (ind + 1) body ++ unparseOrelse ind orelse
  | s :: rest =>
      [indentStr ind ++ "else:"] ++ unparseStmt (ind + 1) s ++ unparseBlock (ind + 1) rest

end

/-- `ast.unparse` of a module: the statement lines joined by newlines (the
unparser writes one statement per line group, no trailing newline). -/
def unparseModule (m : PyModule) : String :=
  String.intercalate "\n" (unparseBlock 0 m.body)

mutual

/-- Whether every block below this statement is nonempty.  The Python grammar
derives a suite as `NEWLINE INDENT stmt+ DEDENT`: a `def`, `class` or `if`
header must be followed by at least one indented statement.  On this
canonical fragment, `ast.parse` accepts `ast.unparse`'s output — and yields
back the same tree — exactly when every block of the tree is nonempty. -/
def wellFormedStmt : Stmt → Bool
  | .functionDef _ _ body _ => !body.isEmpty && wellFormedList body
  | .asyncFunctionDef _ _ body _ => !body.isEmpty && wellFormedList body
  | .classDef _ _ body _ => !body.isEmpty && wellFormedList body
  | .ifStmt _ body orelse => !body.isEmpty && wellFormedList body && wellFormedList orelse
  | _ => true

/-- `wellFormedStmt` over a statement list. -/
def wellFormedList : List Stmt → Bool
  | [] => true
  | s :: rest => wellFormedStmt s && wellFormedList rest

end

/-- A module all of whose blocks are nonempty; an empty module body is a valid
(empty) source file. -/
def wellFormedModule (m : PyModule) : Bool := wellFormedList m.body

/-- A Python source text, represented up to formatting: `valid m` stands for
the texts `ast.parse` maps to the tree `m` (comments and whitespace are not
recorded — `ast.parse` discards them), `invalid raw` for a text `ast.parse`
rejects with a `SyntaxError`, recorded by its raw characters (for example
`ast.unparse` output containing a header with an empty block, or malformed
input such as `"def f(("`). -/
inductive PyText where
  | valid (m : PyModule)
  | invalid (raw : String)

/-- `ast.parse`: succeeds exactly on syntactically valid text.  A `valid m`
text parses to `m` (no text parses to a tree with an empty block, so the
gate also rejects a `valid` value holding such a tree); an `invalid` text
raises `SyntaxError`. -/
def parseText : PyText → Except String PyModule
  | .valid m =>
      if wellFormedModule m then .ok m else .error "SyntaxError: invalid syntax"
  | .invalid _ => .error "SyntaxError: invalid syntax"

/-- `ast.unparse` as a text producer: when every block of `m` is nonempty the
output is a syntactically valid text that parses back to `m`; otherwise the
output is a text that does not parse (a header whose block has no
statements), recorded raw. -/
def unparseText (m : PyModule) : PyText :=
  if wellFormedModule m then .valid m else .invalid (unparseModule m)

/-- `remove_comments_docstrings_and_bodies(source)` end to end:
`ast.parse`, the docstring-removal pass, the `FunctionBodyRemover` pass, then
`ast.unparse`.  A parse failure propagates as the thrown `SyntaxError`. -/
def remove_comments_docstrings_and_bodies (t : PyText) : Except String PyText :=
  match parseText t with
  | .error e => .error e
  | .ok parsed_ast => .ok (unparseText (remove_comments_docstrings_and_bodies_ast parsed_ast))

/-- `process_file(file_path)` with the file's content passed as state: read
the content, transform it, and only then write the result back; when the
transform throws, the exception propagates before the file is reopened for
writing, so the content is left as it was. -/
def process_file (file : PyText) : PyText × Except String Unit :=
  match remove_comments_docstrings_and_bodies file with
  | .ok cleaned => (cleaned, .ok ())
  | .error e => (file, .error e)

/-- A body that is exactly the single placeholder `[ast.Pass()]`. -/
def isSinglePass : List Stmt → Bool
  | [.pass] => true
  | _ => false

/-- For a function or coroutine definition: its body is exactly `[pass]`;
trivially true for every other statement. -/
def hasPassOnlyBody : Stmt → Bool
  | .functionDef _ _ body _ => isSinglePass body
  | .asyncFunctionDef _ _ body _ => isSinglePass body
  | _ => true

mutual

/-- The positions the `FunctionBodyRemover` traversal actually visits hold
stripped bodies: a function or coroutine definition here has body `[pass]`;
a class definition here has every immediate function child's body `[pass]`
(nothing is demanded of its other children); a compound non-definition
statement (`if`) passes the requirement into its branches; everything else is
unconstrained. -/
def strippedWhereVisited : Stmt → Bool
  | .functionDef _ _ body _ => isSinglePass body
  | .asyncFunctionDef _ _ body _ => isSinglePass body
  | .classDef _ _ body _ => body.all hasPassOnlyBody
  | .ifStmt _ body orelse => strippedList body && strippedList orelse
  | _ => true

/-- `strippedWhereVisited` over a statement list. -/
def strippedList : List Stmt → Bool
  | [] => true
  | s :: rest => strippedWhereVisited s && strippedList rest

end

mutual

/-- The property written in claim C1, indexed by the number of enclosing class
definitions: every function or coroutine definition whose enclosing class (if
any) is not itself nested inside another class — that is, with at most one
enclosing class — has body exactly `[pass]`. -/
def claimOneAt : Nat → Stmt → Bool
  | d, .functionDef _ _ body _ =>
      (if d ≤ 1 then isSinglePass body else true) && claimOneList d body
  | d, .asyncFunctionDef _ _ body _ =>
      (if d ≤ 1 then isSinglePass body else true) && claimOneList d body
  | d, .classDef _ _ body _ => claimOneList (d + 1) body
  | d, .ifStmt _ body orelse => claimOneList d body && claimOneList d orelse
  | _, _ => true

/-- `claimOneAt` over a statement list. -/
def claimOneList : Nat → List Stmt → Bool
  | _, [] => true
  | d, s :: rest => claimOneAt d s && claimOneList d rest

end

/-- Claim C1's property read over a whole module (no enclosing class at the
top level). -/
def claimOneModule (m : PyModule) : Bool := claimOneList 0 m.body

/-- The body's first statement, if any, is not a docstring. -/
def headNotDocstring : List Stmt → Bool
  | [] => true
  | s :: _ => !isDocstring s

mutual

/-- No docstring-owner body anywhere below this statement begins with a
string-constant expression statement. -/
def docstringFreeStmt : Stmt → Bool
  | .functionDef _ _ body _ => headNotDocstring body && docstringFreeList body
  | .asyncFunctionDef _ _ body _ => headNotDocstring body && docstringFreeList body
  | .classDef _ _ body _ => headNotDocstring body && docstringFreeList body
  | .ifStmt _ body orelse => docstringFreeList body && docstringFreeList orelse
  | _ => true

/-- `docstringFreeStmt` over a statement list. -/
def docstringFreeList : List Stmt → Bool
  | [] => true
  | s :: rest => docstringFreeStmt s && docstringFreeList rest

end

/-- No docstring-owner body anywhere in the module (the module body included)
begins with a string-constant expression statement. -/
def docstringFreeModule (m : PyModule) : Bool :=
  headNotDocstring m.body && docstringFreeList m.body

/-- The body does not begin with two string-constant expression statements in
a row. -/
def headsNotBothDocstrings : List Stmt → Bool
  | s0 :: s1 :: _ => !(isDocstring s0 && isDocstring s1)
  | _ => true

mutual

/-- No docstring-owner body anywhere below this statement begins with two
consecutive string-constant expression statements. -/
def noDoubleDocstringStmt : Stmt → Bool
  | .functionDef _ _ body _ => headsNotBothDocstrings body && noDoubleDocstringList body
  | .asyncFunctionDef _ _ body _ => headsNotBothDocstrings body && noDoubleDocstringList body
  | .classDef _ _ body _ => headsNotBothDocstrings body && noDoubleDocstringList body
  | .ifStmt _ body orelse => noDoubleDocstringList body && noDoubleDocstringList orelse
  | _ => true

/-- `noDoubleDocstringStmt` over a statement list. -/
def noDoubleDocstringList : List Stmt → Bool
  | [] => true
  | s :: rest => noDoubleDocstringStmt s && noDoubleDocstringList rest

end

/-- No docstring-owner body anywhere in the module (the module body included)
begins with two consecutive string-constant expression statements. -/
def noDoubleDocstringModule (m : PyModule) : Bool :=
  headsNotBothDocstrings m.body && noDoubleDocstringList m.body

/-- The kind of a definition header. -/
inductive SigKind where
  | func
  | asyncFunc
  | cls
deriving DecidableEq

/-- The textual interface of one definition as it appears in serialized
output: its kind, name, parameter list, base list and decorator list. -/
structure Sig where
  kind : SigKind
  name : String
  args : List String
  bases : List Expr
  decorators : List Expr

mutual

/-- All definition signatures at or below a statement, in preorder. -/
def sigsOfStmt : Stmt → List Sig
  | .functionDef n a body d => ⟨.func, n, a, [], d⟩ :: sigsOfList body
  | .asyncFunctionDef n a body d => ⟨.asyncFunc, n, a, [], d⟩ :: sigsOfList body
  | .classDef n bs body d => ⟨.cls, n, [], bs, d⟩ :: sigsOfList body
  | .ifStmt _ body orelse => sigsOfList body ++ sigsOfList orelse
  | _ => []

/-- `sigsOfStmt` over a statement list. -/
def sigsOfList : List Stmt → List Sig
  | [] => []
  | s :: rest => sigsOfStmt s ++ sigsOfList rest

end

/-- All definition signatures of a module, in preorder. -/
def moduleSigs (m : PyModule) : List Sig := sigsOfList m.body

/-- The statement's own body list (empty for simple statements). -/
def Stmt.bodyOf : Stmt → List Stmt
  | .functionDef _ _ body _ => body
  | .asyncFunctionDef _ _ body _ => body
  | .classDef _ _ body _ => body
  | .ifStmt _ body _ => body
  | _ => []

/-- The statement's definition name (empty for non-definitions). -/
def Stmt.nameOf : Stmt → String
  | .functionDef n _ _ _ => n
  | .asyncFunctionDef n _ _ _ => n
  | .classDef n _ _ _ => n
  | _ => ""

/-- The statement's parameter list (empty for non-functions). -/
def Stmt.argsOf : Stmt → List String
  | .functionDef _ a _ _ => a
  | .asyncFunctionDef _ a _ _ => a
  | _ => []

/-- The statement's decorator list (empty for non-definitions). -/
def Stmt.decoratorsOf : Stmt → List Expr
  | .functionDef _ _ _ d => d
  | .asyncFunctionDef _ _ _ d => d
  | .classDef _ _ _ d => d
  | _ => []

/-- What a flattener script's entry sequence does with its command line:
either it terminates early printing a usage text and exiting with the given
status code, or it proceeds to run the extraction over a root directory. -/
inductive CliOutcome where
  | usageExit (message : String) (code : Nat)
  | run (rootDir : String) (includeTests : Bool)
deriving DecidableEq

/-- The argument check at the top of `app.py`:
`if len(sys.argv) < 2: print("Usage: ..."); sys.exit(1)` and otherwise
`root_directory = sys.argv[1]` (that script has no include-tests flag).
`argv` is the full `sys.argv`, script name included. -/
def app_main_args (argv : List String) : CliOutcome :=
  if argv.length < 2 then
    .usageExit "Usage: python script.py <directory-path>" 1
  else
    .run (argv.getD 1 "") false

/-- The usage line `argparse` prints for `files_only.py`'s parser
(program name, the optional flags, the required positional). -/
def files_only_usage : String :=
  "usage: files_only.py [-h] [-t] directory"

/-- The spellings accepted for the include-tests flag registered by
`parser.add_argument("-t", "--include-tests", action="store_true", ...)`. -/
def isIncludeTestsFlag (a : String) : Bool :=
  a == "-t" || a == "--include-tests"

/-- `parser.parse_args()` for `files_only.py`'s parser, modelled from the
documented behaviour of the Python standard library `argparse` module on the
two declared arguments: the tokens of `sys.argv[1:]` that are not occurrences
of the optional flag are bound to positionals, the required positional
`directory` takes the first of them, and when it is missing the parser calls
`parser.error`, which prints the usage message to stderr and terminates the
process with status code 2. -/
def files_only_parse_args (args : List String) : CliOutcome :=
  match args.filter (fun a => !isIncludeTestsFlag a) with
  | [] => .usageExit files_only_usage 2
  | d :: _ => .run d (args.any isIncludeTestsFlag)

/-- A directory tree as `os.walk` traverses it: the files of this directory
(name and readable content) and the named subdirectories. -/
inductive DirTree where
  | dir (files : List (String × String)) (subdirs : List (String × DirTree))

/-- The unconditional directory exclusions of `files_only.py`:
`dirnames[:] = [d for d in dirnames if d not in ['.git', '.cache', 'build', 'install']]`. -/
def alwaysExcludedDirs : List String := [".git", ".cache", "build", "install"]

/-- `str.lower` on one character, for the ASCII range the filters compare
against. -/
def asciiLowerChar (c : Char) : Char :=
  if 65 ≤ c.toNat && c.toNat ≤ 90 then Char.ofNat (c.toNat + 32) else c

/-- Python's `str.lower()` (ASCII case mapping). -/
def asciiLower (s : String) : String := String.mk (s.data.map asciiLowerChar)

/-- Whether the second character list is an initial segment of the first. -/
def startsWithList : List Char → List Char → Bool
  | _, [] => true
  | [], _ :: _ => false
  | c :: cs, p :: ps => c == p && startsWithList cs ps

/-- Whether the second character list occurs contiguously in the first. -/
def containsSubList : List Char → List Char → Bool
  | [], p => p.isEmpty
  | c :: rest, p => startsWithList (c :: rest) p || containsSubList rest p

/-- Python's substring operator `pat in s`. -/
def strContains (s pat : String) : Bool := containsSubList s.data pat.data

/-- `'test' in x.lower() or 'mock' in x.lower()`, the name marker test used by
`files_only.py` for both directory and file names. -/
def hasTestOrMock (s : String) : Bool :=
  strContains (asciiLower s) "test" || strContains (asciiLower s) "mock"

/-- The file filter in the inner loop of `extract_codebase_content`:
`if (not include_tests and ('test' in filename.lower() or 'mock' in
filename.lower())) or filename == "codebase_content.txt": continue`. -/
def keepFile (includeTests : Bool) (fname : String) : Bool :=
  !((!includeTests && hasTestOrMock fname) || fname == "codebase_content.txt")

/-- The directory pruning applied to `dirnames` before `os.walk` descends:
the unconditional exclusions, then the test/mock name filter when tests are
not included. -/
def keepDir (includeTests : Bool) (dname : String) : Bool :=
  !alwaysExcludedDirs.contains dname && (includeTests || !hasTestOrMock dname)

/-- One labeled entry of the produced artifact: the path of the file relative
to the walk root, its bare name, and its content. -/
structure FileSection where
  relpath : String
  fname : String
  content : String

/-- `os.path.relpath(os.path.join(dirpath, filename), root_dir)` for a file
reached through the directory components `pathParts` below the root. -/
def relPathStr (pathParts : List String) (fname : String) : String :=
  String.intercalate "/" (pathParts ++ [fname])

/-- The inner `for filename in filenames` loop: keep the files that pass
`keepFile`, labeling each with its relative path. -/
def collectFiles (pathParts : List String) (includeTests : Bool) :
    List (String × String) → List FileSection
  | [] => []
  | (fname, content) :: rest =>
      if keepFile includeTests fname then
        ⟨relPathStr pathParts fname, fname, content⟩
          :: collectFiles pathParts includeTests rest
      else collectFiles pathParts includeTests rest

mutual

/-- The `os.walk(root_dir)` loop of `files_only.extract_codebase_content`:
top-down, this directory's kept files first, then the kept subdirectories in
order. -/
def walkDir (pathParts : List String) (includeTests : Bool) : DirTree → List FileSection
  | .dir files subdirs =>
      collectFiles pathParts includeTests files
        ++ walkSubdirs pathParts includeTests subdirs

/-- Descent into the subdirectory list after the `dirnames[:]` pruning:
subdirectories failing `keepDir` are not walked at all. -/
def walkSubdirs (pathParts : List String) (includeTests : Bool) :
    List (String × DirTree) → List FileSection
  | [] => []
  | (dname, t) :: rest =>
      (if keepDir includeTests dname then
          walkDir (pathParts ++ [dname]) includeTests t
        else [])
        ++ walkSubdirs pathParts includeTests rest

end

/-- `files_only.extract_codebase_content(root_dir, include_tests)`: the kept
sections, each rendered as `## relpath\n\ncontent\n`, joined by newlines. -/
def extract_codebase_content (root : DirTree) (includeTests : Bool) : String :=
  String.intercalate "\n"
    ((walkDir [] includeTests root).map
      (fun sec => "## " ++ sec.relpath ++ "\n\n" ++ sec.content ++ "\n"))

/-- The concrete scenario of the specification: `def f(x)` with a docstring
and a return statement transforms to `f(x)` with the docstring absent and the
body a single no-op statement. -/
theorem sanity_function_stripped :
    remove_comments_docstrings_and_bodies_ast
        ⟨[.functionDef "f" ["x"] [.exprStmt (.constStr "doc"), .ret (some (.name "x"))] []]⟩
        = ⟨[.functionDef "f" ["x"] [.pass] []]⟩
      ∧ unparseModule ⟨[.functionDef "f" ["x"] [.pass] []]⟩ = "def f(x):\n    pass" :=
  ⟨rfl, rfl⟩

/-- Serialization sanity check: an emptied class body serializes to the bare
header. -/
theorem sanity_unparse_empty_class :
    unparseModule ⟨[.classDef "A" [] [] []]⟩ = "class A:" := rfl

/-- Walk sanity check: a concrete tree with the produced output file name
present and a subdirectory. -/
theorem sanity_extract_codebase_content :
    extract_codebase_content
        (.dir [("a.py", "print(1)"), ("codebase_content.txt", "old")]
          [("sub", .dir [("b.py", "x")] [])]) false
      = "## a.py\n\nprint(1)\n\n## sub/b.py\n\nx\n" := rfl

theorem isDocstring_remove_docstrings (s : Stmt) :
    isDocstring (remove_docstrings s) = isDocstring s := by
  cases s <;> rfl

theorem isDocstring_FunctionBodyRemover_visit (s : Stmt) :
    isDocstring (FunctionBodyRemover_visit s) = isDocstring s := by
  cases s <;> rfl

theorem isFunctionOrAsync_remove_docstrings (s : Stmt) :
    isFunctionOrAsync (remove_docstrings s) = isFunctionOrAsync s := by
  cases s <;> rfl

theorem isFunctionOrAsync_FunctionBodyRemover_visit (s : Stmt) :
    isFunctionOrAsync (FunctionBodyRemover_visit s) = isFunctionOrAsync s := by
  cases s <;> rfl

mutual

theorem visit_remove_comm : (s : Stmt) →
    FunctionBodyRemover_visit (remove_docstrings s)
      = remove_docstrings (FunctionBodyRemover_visit s)
  | .functionDef _ _ _ _ => rfl
  | .asyncFunctionDef _ _ _ _ => rfl
  | .classDef name bases body decorators => by
      simp only [remove_docstrings, FunctionBodyRemover_visit]
      rw [classBody_removeBody_comm body]
  | .ret _ => rfl
  | .assign _ _ => rfl
  | .exprStmt _ => rfl
  | .ifStmt test body orelse => by
      simp only [remove_docstrings, FunctionBodyRemover_visit]
      rw [visitList_removeList_comm body, visitList_removeList_comm orelse]
  | .pass => rfl

theorem visitList_removeList_comm : (l : List Stmt) →
    FunctionBodyRemover_visitList (removeDocstringsList l)
      = removeDocstringsList (FunctionBodyRemover_visitList l)
  | [] => rfl
  | s :: rest => by
      simp only [removeDocstringsList, FunctionBodyRemover_visitList]
      rw [visit_remove_comm s, visitList_removeList_comm rest]

theorem visitList_removeBody_comm : (l : List Stmt) →
    FunctionBodyRemover_visitList (removeDocstringsBody l)
      = removeDocstringsBody (FunctionBodyRemover_visitList l)
  | [] => rfl
  | s :: rest => by
      have hs := visit_remove_comm s
      have hr := visitList_removeList_comm rest
      cases h : isDocstring s with
      | true =>
          simp [removeDocstringsBody, FunctionBodyRemover_visitList,
            isDocstring_FunctionBodyRemover_visit, h, hr]
      | false =>
          simp [removeDocstringsBody, FunctionBodyRemover_visitList,
            isDocstring_FunctionBodyRemover_visit, h, hs, hr]

theorem classBody_removeList_comm : (l : List Stmt) →
    FunctionBodyRemover_classBody (removeDocstringsList l)
      = removeDocstringsList (FunctionBodyRemover_classBody l)
  | [] => rfl
  | s :: rest => by
      have hs := visit_remove_comm s
      have hr := classBody_removeList_comm rest
      cases h : isFunctionOrAsync s with
      | true =>
          simp [removeDocstringsList, FunctionBodyRemover_classBody,
            isFunctionOrAsync_remove_docstrings, h, hs, hr]
      | false =>
          simp [removeDocstringsList, FunctionBodyRemover_classBody,
            isFunctionOrAsync_remove_docstrings, h, hr]

theorem classBody_removeBody_comm : (l : List Stmt) →
    FunctionBodyRemover_classBody (removeDocstringsBody l)
      = removeDocstringsBody (FunctionBodyRemover_classBody l)
  | [] => rfl
  | s :: rest => by
      have hs := visit_remove_comm s
      have hrl := classBody_removeList_comm rest
      cases hd : isDocstring s with
      | true =>
          have hf : isFunctionOrAsync s = false := by
            cases s <;> simp_all [isDocstring, isFunctionOrAsync]
          simp [removeDocstringsBody, FunctionBodyRemover_classBody, hd, hf, hrl]
      | false =>
          cases hf : isFunctionOrAsync s with
          | true =>
              simp [removeDocstringsBody, FunctionBodyRemover_classBody,
                isFunctionOrAsync_remove_docstrings, isDocstring_FunctionBodyRemover_visit,
                hd, hf, hs, hrl]
          | false =>
              simp [removeDocstringsBody, FunctionBodyRemover_classBody,
                isFunctionOrAsync_remove_docstrings, hd, hf, hrl]

end

/-- Claim C5: the two passes commute — running docstring removal and then the
body-replacement transformer over a parsed module yields the same tree, and
hence the same serialized output, as running the body-replacement transformer
first and docstring removal second. -/
theorem c5_passes_commute (m : PyModule) :
    FunctionBodyRemoverModule (removeDocstringsModule m)
        = removeDocstringsModule (FunctionBodyRemoverModule m)
      ∧ unparseModule (FunctionBodyRemoverModule (removeDocstringsModule m))
        = unparseModule (removeDocstringsModule (FunctionBodyRemoverModule m)) := by
  have h : FunctionBodyRemoverModule (removeDocstringsModule m)
      = removeDocstringsModule (FunctionBodyRemoverModule m) := by
    unfold FunctionBodyRemoverModule removeDocstringsModule
    exact congrArg PyModule.mk (visitList_removeBody_comm m.body)
  exact ⟨h, congrArg unparseModule h⟩

mutual

theorem visit_idem : (s : Stmt) →
    FunctionBodyRemover_visit (FunctionBodyRemover_visit s) = FunctionBodyRemover_visit s
  | .functionDef _ _ _ _ => rfl
  | .asyncFunctionDef _ _ _ _ => rfl
  | .classDef name bases body decorators => by
      simp only [FunctionBodyRemover_visit]
      rw [classBody_idem body]
  | .ret _ => rfl
  | .assign _ _ => rfl
  | .exprStmt _ => rfl
  | .ifStmt test body orelse => by
      simp only [FunctionBodyRemover_visit]
      rw [visitList_idem body, visitList_idem orelse]
  | .pass => rfl

theorem visitList_idem : (l : List Stmt) →
    FunctionBodyRemover_visitList (FunctionBodyRemover_visitList l)
      = FunctionBodyRemover_visitList l
  | [] => rfl
  | s :: rest => by
      simp only [FunctionBodyRemover_visitList]
      rw [visit_idem s, visitList_idem rest]

theorem classBody_idem : (l : List Stmt) →
    FunctionBodyRemover_classBody (FunctionBodyRemover_classBody l)
      = FunctionBodyRemover_classBody l
  | [] => rfl
  | s :: rest => by
      have hs := visit_idem s
      have hr := classBody_idem rest
      cases h : isFunctionOrAsync s with
      | true =>
          simp [FunctionBodyRemover_classBody, isFunctionOrAsync_FunctionBodyRemover_visit,
            h, hs, hr]
      | false =>
          simp [FunctionBodyRemover_classBody, h, hr]

end

mutual

theorem remove_docstrings_of_free : (s : Stmt) → docstringFreeStmt s = true →
    remove_docstrings s = s
  | .functionDef name args body decorators, h => by
      simp only [docstringFreeStmt, Bool.and_eq_true] at h
      simp only [remove_docstrings]
      rw [removeBody_of_free body h.1 h.2]
  | .asyncFunctionDef name args body decorators, h => by
      simp only [docstringFreeStmt, Bool.and_eq_true] at h
      simp only [remove_docstrings]
      rw [removeBody_of_free body h.1 h.2]
  | .classDef name bases body decorators, h => by
      simp only [docstringFreeStmt, Bool.and_eq_true] at h
      simp only [remove_docstrings]
      rw [removeBody_of_free body h.1 h.2]
  | .ret _, _ => rfl
  | .assign _ _, _ => rfl
  | .exprStmt _, _ => rfl
  | .ifStmt test body orelse, h => by
      simp only [docstringFreeStmt, Bool.and_eq_true] at h
      simp only [remove_docstrings]
      rw [removeList_of_free body h.1, removeList_of_free orelse h.2]
  | .pass, _ => rfl

theorem removeBody_of_free : (l : List Stmt) → headNotDocstring l = true →
    docstringFreeList l = true → removeDocstringsBody l = l
  | [], _, _ => rfl
  | s :: rest, h1, h2 => by
      simp only [headNotDocstring, Bool.not_eq_eq_eq_not, Bool.not_true] at h1
      simp only [docstringFreeList, Bool.and_eq_true] at h2
      simp only [removeDocstringsBody, h1]
      simp only [Bool.false_eq_true, if_false]
      rw [remove_docstrings_of_free s h2.1, removeList_of_free rest h2.2]

theorem removeList_of_free : (l : List Stmt) → docstringFreeList l = true →
    removeDocstringsList l = l
  | [], _ => rfl
  | s :: rest, h => by
      simp only [docstringFreeList, Bool.and_eq_true] at h
      simp only [removeDocstringsList]
      rw [remove_docstrings_of_free s h.1, removeList_of_free rest h.2]

end

theorem headNotDocstring_visitList (l : List Stmt) :
    headNotDocstring (FunctionBodyRemover_visitList l) = headNotDocstring l := by
  cases l with
  | nil => rfl
  | cons s rest =>
      simp [FunctionBodyRemover_visitList, headNotDocstring,
        isDocstring_FunctionBodyRemover_visit]

mutual

theorem docstringFree_visit : (s : Stmt) → docstringFreeStmt s = true →
    docstringFreeStmt (FunctionBodyRemover_visit s) = true
  | .functionDef _ _ _ _, _ => rfl
  | .asyncFunctionDef _ _ _ _, _ => rfl
  | .classDef name bases body decorators, h => by
      simp only [docstringFreeStmt, Bool.and_eq_true] at h
      simp only [FunctionBodyRemover_visit, docstringFreeStmt, Bool.and_eq_true]
      refine ⟨?_, docstringFree_classBody body h.2⟩
      have : headNotDocstring (FunctionBodyRemover_classBody body) = headNotDocstring body := by
        cases body with
        | nil => rfl
        | cons c rest =>
            cases hf : isFunctionOrAsync c with
            | true =>
                simp [FunctionBodyRemover_classBody, headNotDocstring, hf,
                  isDocstring_FunctionBodyRemover_visit]
            | false => simp [FunctionBodyRemover_classBody, headNotDocstring, hf]
      rw [this]
      exact h.1
  | .ret _, h => h
  | .assign _ _, h => h
  | .exprStmt _, h => h
  | .ifStmt test body orelse, h => by
      simp only [docstringFreeStmt, Bool.and_eq_true] at h
      simp only [FunctionBodyRemover_visit, docstringFreeStmt, Bool.and_eq_true]
      exact ⟨docstringFree_visitList body h.1, docstringFree_visitList orelse h.2⟩
  | .pass, h => h

theorem docstringFree_visitList : (l : List Stmt) → docstringFreeList l = true →
    docstringFreeList (FunctionBodyRemover_visitList l) = true
  | [], _ => rfl
  | s :: rest, h => by
      simp only [docstringFreeList, Bool.and_eq_true] at h
      simp only [FunctionBodyRemover_visitList, docstringFreeList, Bool.and_eq_true]
      exact ⟨docstringFree_visit s h.1, docstringFree_visitList rest h.2⟩

theorem docstringFree_classBody : (l : List Stmt) → docstringFreeList l = true →
    docstringFreeList (FunctionBodyRemover_classBody l) = true
  | [], _ => rfl
  | s :: rest, h => by
      simp only [docstringFreeList, Bool.and_eq_true] at h
      cases hf : isFunctionOrAsync s with
      | true =>
          simp only [FunctionBodyRemover_classBody, hf, if_pos rfl, docstringFreeList,
            Bool.and_eq_true]
          exact ⟨docstringFree_visit s h.1, docstringFree_classBody rest h.2⟩
      | false =>
          simp only [FunctionBodyRemover_classBody, hf, Bool.false_eq_true, if_false,
            docstringFreeList, Bool.and_eq_true]
          exact ⟨h.1, docstringFree_classBody rest h.2⟩

end

mutual

theorem free_of_noDouble_stmt : (s : Stmt) → noDoubleDocstringStmt s = true →
    docstringFreeStmt (remove_docstrings s) = true
  | .functionDef name args body decorators, h => by
      simp only [noDoubleDocstringStmt, Bool.and_eq_true] at h
      simp only [remove_docstrings, docstringFreeStmt, Bool.and_eq_true]
      exact free_of_noDouble_body body h.1 h.2
  | .asyncFunctionDef name args body decorators, h => by
      simp only [noDoubleDocstringStmt, Bool.and_eq_true] at h
      simp only [remove_docstrings, docstringFreeStmt, Bool.and_eq_true]
      exact free_of_noDouble_body body h.1 h.2
  | .classDef name bases body decorators, h => by
      simp only [noDoubleDocstringStmt, Bool.and_eq_true] at h
      simp only [remove_docstrings, docstringFreeStmt, Bool.and_eq_true]
      exact free_of_noDouble_body body h.1 h.2
  | .ret _, _ => rfl
  | .assign _ _, _ => rfl
  | .exprStmt _, _ => rfl
  | .ifStmt test body orelse, h => by
      simp only [noDoubleDocstringStmt, Bool.and_eq_true] at h
      simp only [remove_docstrings, docstringFreeStmt, Bool.and_eq_true]
      exact ⟨free_of_noDouble_list body h.1, free_of_noDouble_list orelse h.2⟩
  | .pass, _ => rfl

theorem free_of_noDouble_body : (l : List Stmt) → headsNotBothDocstrings l = true →
    noDoubleDocstringList l = true →
    headNotDocstring (removeDocstringsBody l) = true
      ∧ docstringFreeList (removeDocstringsBody l) = true
  | [], _, _ => ⟨rfl, rfl⟩
  | s :: rest, h1, h2 => by
      simp only [noDoubleDocstringList, Bool.and_eq_true] at h2
      cases hd : isDocstring s with
      | true =>
          refine ⟨?_, ?_⟩
          · cases rest with
            | nil => simp [removeDocstringsBody, hd, removeDocstringsList, headNotDocstring]
            | cons s1 r1 =>
                simp only [headsNotBothDocstrings, hd, Bool.true_and,
                  Bool.not_eq_eq_eq_not, Bool.not_true] at h1
                simp [removeDocstringsBody, hd, removeDocstringsList, headNotDocstring,
                  isDocstring_remove_docstrings, h1]
          · simp only [removeDocstringsBody, hd, if_pos rfl]
            exact free_of_noDouble_list rest h2.2
      | false =>
          simp only [removeDocstringsBody, hd, Bool.false_eq_true, if_false]
          refine ⟨?_, ?_⟩
          · simp [headNotDocstring, isDocstring_remove_docstrings, hd]
          · simp only [docstringFreeList, Bool.and_eq_true]
            exact ⟨free_of_noDouble_stmt s h2.1, free_of_noDouble_list rest h2.2⟩

theorem free_of_noDouble_list : (l : List Stmt) → noDoubleDocstringList l = true →
    docstringFreeList (removeDocstringsList l) = true
  | [], _ => rfl
  | s :: rest, h => by
      simp only [noDoubleDocstringList, Bool.and_eq_true] at h
      simp only [removeDocstringsList, docstringFreeList, Bool.and_eq_true]
      exact ⟨free_of_noDouble_stmt s h.1, free_of_noDouble_list rest h.2⟩

end

theorem rcdb_ast_idem_of_free (m : PyModule)
    (h : docstringFreeModule (remove_comments_docstrings_and_bodies_ast m) = true) :
    remove_comments_docstrings_and_bodies_ast (remove_comments_docstrings_and_bodies_ast m)
      = remove_comments_docstrings_and_bodies_ast m := by
  simp only [remove_comments_docstrings_and_bodies_ast, FunctionBodyRemoverModule,
    removeDocstringsModule, docstringFreeModule, Bool.and_eq_true] at h ⊢
  rw [removeBody_of_free _ h.1 h.2, visitList_idem]

/-- Claim C2 (counterexample): the transform is not idempotent.  On the valid
two-statement input `'one'` `'two'` (a module docstring followed by a second
string-literal statement) the first application removes only the leading
string, leaving `'two'` as the new module docstring; the second application
removes that one too, so the second output differs from the first. -/
theorem c2_counterexample_second_docstring :
    wellFormedModule ⟨[.exprStmt (.constStr "one"), .exprStmt (.constStr "two")]⟩ = true
      ∧ remove_comments_docstrings_and_bodies
          (.valid ⟨[.exprStmt (.constStr "one"), .exprStmt (.constStr "two")]⟩)
          = .ok (.valid ⟨[.exprStmt (.constStr "two")]⟩)
      ∧ remove_comments_docstrings_and_bodies (.valid ⟨[.exprStmt (.constStr "two")]⟩)
          = .ok (.valid ⟨[]⟩)
      ∧ PyText.valid ⟨[.exprStmt (.constStr "two")]⟩ ≠ PyText.valid (⟨[]⟩ : PyModule)
      ∧ unparseModule ⟨[.exprStmt (.constStr "two")]⟩ ≠ unparseModule ⟨[]⟩ := by
  refine ⟨rfl, rfl, rfl, by simp, by decide⟩

/-- Claim C2 (amended): applying the transform to its own output returns that
output unchanged, provided the once-transformed output is itself syntactically
valid and contains no docstring any more (no docstring-owner body of it begins
with a string-literal expression statement) — which its placeholder bodies
otherwise guarantee only for function bodies. -/
theorem c2_amended_idempotent_on_docstring_free_output (m : PyModule)
    (h1 : wellFormedModule m = true)
    (h2 : wellFormedModule (remove_comments_docstrings_and_bodies_ast m) = true)
    (h3 : docstringFreeModule (remove_comments_docstrings_and_bodies_ast m) = true) :
    remove_comments_docstrings_and_bodies (.valid m)
        = .ok (.valid (remove_comments_docstrings_and_bodies_ast m))
      ∧ remove_comments_docstrings_and_bodies
          (.valid (remove_comments_docstrings_and_bodies_ast m))
        = .ok (.valid (remove_comments_docstrings_and_bodies_ast m)) := by
  constructor
  · simp [remove_comments_docstrings_and_bodies, parseText, h1, unparseText, h2]
  · simp [remove_comments_docstrings_and_bodies, parseText, h2, unparseText,
      rcdb_ast_idem_of_free m h3]

theorem c2_amended_idempotent_on_docstring_free_output_witness :
    wellFormedModule ⟨[.functionDef "f" ["x"]
        [.exprStmt (.constStr "docf"), .ret (some (.name "x"))] []]⟩ = true
      ∧ (remove_comments_docstrings_and_bodies (.valid ⟨[.functionDef "f" ["x"]
            [.exprStmt (.constStr "docf"), .ret (some (.name "x"))] []]⟩)
          = .ok (.valid (remove_comments_docstrings_and_bodies_ast ⟨[.functionDef "f" ["x"]
            [.exprStmt (.constStr "docf"), .ret (some (.name "x"))] []]⟩))
        ∧ remove_comments_docstrings_and_bodies
            (.valid (remove_comments_docstrings_and_bodies_ast ⟨[.functionDef "f" ["x"]
              [.exprStmt (.constStr "docf"), .ret (some (.name "x"))] []]⟩))
          = .ok (.valid (remove_comments_docstrings_and_bodies_ast ⟨[.functionDef "f" ["x"]
            [.exprStmt (.constStr "docf"), .ret (some (.name "x"))] []]⟩))) :=
  ⟨rfl, c2_amended_idempotent_on_docstring_free_output
    ⟨[.functionDef "f" ["x"] [.exprStmt (.constStr "docf"), .ret (some (.name "x"))] []]⟩
    rfl rfl rfl⟩

/-- Claim C4 (counterexample): the docstring pass does visit every node, but
it removes only the first statement of each owner body, checked once.  On the
valid input `'m1'` `'m2'` — which contains a module-level docstring — the
output's module body still begins with the literal-text statement `'m2'`. -/
theorem c4_counterexample_consecutive_docstrings :
    wellFormedModule ⟨[.exprStmt (.constStr "m1"), .exprStmt (.constStr "m2")]⟩ = true
      ∧ headNotDocstring (⟨[.exprStmt (.constStr "m1"), .exprStmt (.constStr "m2")]⟩ :
          PyModule).body = false
      ∧ headNotDocstring (remove_comments_docstrings_and_bodies_ast
          ⟨[.exprStmt (.constStr "m1"), .exprStmt (.constStr "m2")]⟩).body = false
      ∧ docstringFreeModule (remove_comments_docstrings_and_bodies_ast
          ⟨[.exprStmt (.constStr "m1"), .exprStmt (.constStr "m2")]⟩) = false :=
  ⟨rfl, rfl, rfl, rfl⟩

/-- Claim C4 (amended): the docstring-removal pass visits every node at every
depth, and — provided no docstring-owner body of the input begins with two
consecutive string-literal statements — after the transform no module, class,
or function body anywhere in the output begins with a literal-text expression
statement; in particular the output then has no leading literal-text statement
at module scope. -/
theorem c4_amended_docstring_removal_global (m : PyModule)
    (h : noDoubleDocstringModule m = true) :
    docstringFreeModule (remove_comments_docstrings_and_bodies_ast m) = true := by
  simp only [noDoubleDocstringModule, Bool.and_eq_true] at h
  simp only [docstringFreeModule, remove_comments_docstrings_and_bodies_ast,
    FunctionBodyRemoverModule, removeDocstringsModule, Bool.and_eq_true]
  have hb := free_of_noDouble_body m.body h.1 h.2
  exact ⟨by rw [headNotDocstring_visitList]; exact hb.1, docstringFree_visitList _ hb.2⟩

theorem c4_amended_docstring_removal_global_witness :
    noDoubleDocstringModule ⟨[.exprStmt (.constStr "moddoc"),
        .classDef "A" [] [.exprStmt (.constStr "classdoc"), .pass] []]⟩ = true
      ∧ docstringFreeModule (remove_comments_docstrings_and_bodies_ast
          ⟨[.exprStmt (.constStr "moddoc"),
            .classDef "A" [] [.exprStmt (.constStr "classdoc"), .pass] []]⟩) = true :=
  ⟨rfl, c4_amended_docstring_removal_global
    ⟨[.exprStmt (.constStr "moddoc"),
      .classDef "A" [] [.exprStmt (.constStr "classdoc"), .pass] []]⟩ rfl⟩

theorem hasPassOnly_classBody (l : List Stmt) :
    (FunctionBodyRemover_classBody l).all hasPassOnlyBody = true := by
  induction l with
  | nil => rfl
  | cons s rest ih =>
      cases hf : isFunctionOrAsync s with
      | true =>
          cases s <;> simp_all [FunctionBodyRemover_classBody, FunctionBodyRemover_visit,
            hasPassOnlyBody, isSinglePass, isFunctionOrAsync]
      | false =>
          cases s <;> simp_all [FunctionBodyRemover_classBody, hasPassOnlyBody,
            isFunctionOrAsync]

mutual

theorem stripped_visit : (s : Stmt) →
    strippedWhereVisited (FunctionBodyRemover_visit s) = true
  | .functionDef _ _ _ _ => rfl
  | .asyncFunctionDef _ _ _ _ => rfl
  | .classDef name bases body decorators => by
      simp only [FunctionBodyRemover_visit, strippedWhereVisited]
      exact hasPassOnly_classBody body
  | .ret _ => rfl
  | .assign _ _ => rfl
  | .exprStmt _ => rfl
  | .ifStmt test body orelse => by
      simp only [FunctionBodyRemover_visit, strippedWhereVisited, Bool.and_eq_true]
      exact ⟨stripped_visitList body, stripped_visitList orelse⟩
  | .pass => rfl

theorem stripped_visitList : (l : List Stmt) →
    strippedList (FunctionBodyRemover_visitList l) = true
  | [] => rfl
  | s :: rest => by
      simp only [FunctionBodyRemover_visitList, strippedList, Bool.and_eq_true]
      exact ⟨stripped_visit s, stripped_visitList rest⟩

end

/-- Claim C1 (counterexample): the claim fails for a function definition that
sits under an `if` statement inside a top-level (non-nested) class.  On the
valid input `class A: if cond: def f(self): return 1`, `visit_ClassDef`
rebuilds only the immediate children that are function definitions, so the
`if` child — and `f` inside it — is left untouched: the transform is the
identity on this module, and `f`, whose enclosing class `A` is not nested
inside another class, keeps its original one-statement body `return 1`
instead of `pass`. -/
theorem c1_counterexample_def_under_if_in_class :
    wellFormedModule ⟨[.classDef "A" []
        [.ifStmt (.name "cond")
          [.functionDef "f" ["self"] [.ret (some (.constInt 1))] []] []] []]⟩ = true
      ∧ remove_comments_docstrings_and_bodies_ast ⟨[.classDef "A" []
          [.ifStmt (.name "cond")
            [.functionDef "f" ["self"] [.ret (some (.constInt 1))] []] []] []]⟩
        = ⟨[.classDef "A" []
            [.ifStmt (.name "cond")
              [.functionDef "f" ["self"] [.ret (some (.constInt 1))] []] []] []]⟩
      ∧ claimOneModule (remove_comments_docstrings_and_bodies_ast ⟨[.classDef "A" []
          [.ifStmt (.name "cond")
            [.functionDef "f" ["self"] [.ret (some (.constInt 1))] []] []] []]⟩) = false :=
  ⟨rfl, rfl, rfl⟩

/-- Claim C1 (amended): in the output of the transform, every function or
coroutine definition the body-replacement pass visits has a body of exactly
one `pass` statement — namely every definition reachable from the module root
through non-definition compound statements only, and every definition that is
an immediate child of a class definition so reachable.  Definitions reached
only through a nested class, through a non-definition statement inside a class
body, or inside another function are outside this guarantee. -/
theorem c1_amended_bodies_stripped_where_visited (m : PyModule) :
    strippedList (remove_comments_docstrings_and_bodies_ast m).body = true := by
  simp only [remove_comments_docstrings_and_bodies_ast, FunctionBodyRemoverModule]
  exact stripped_visitList _

/-- Claim C3: when the input file's content is not syntactically valid,
`process_file` propagates the parse error thrown inside
`remove_comments_docstrings_and_bodies` and the file's content is left
unchanged — the write happens only after the transform has completed. -/
theorem c3_parse_error_leaves_file_unchanged (t : PyText) (e : String)
    (h : parseText t = .error e) :
    process_file t = (t, .error e) := by
  simp [process_file, remove_comments_docstrings_and_bodies, h]

theorem c3_parse_error_leaves_file_unchanged_witness :
    parseText (.invalid "def f((") = .error "SyntaxError: invalid syntax"
      ∧ process_file (.invalid "def f((")
        = (.invalid "def f((", .error "SyntaxError: invalid syntax") :=
  ⟨rfl, c3_parse_error_leaves_file_unchanged (.invalid "def f((")
    "SyntaxError: invalid syntax" rfl⟩

/-- Claim C10: there is a syntactically valid input — a class whose body is
just its docstring — on which the transform produces output that is not valid
source: docstring removal pops the class body's only statement and the
body-replacement pass inserts a placeholder only into function bodies, so the
class body comes out empty and serializes to the bare header `class A:`,
which does not re-parse. -/
theorem c10_output_not_reparseable :
    wellFormedModule ⟨[.classDef "A" [] [.exprStmt (.constStr "doc only")] []]⟩ = true
      ∧ remove_comments_docstrings_and_bodies_ast
          ⟨[.classDef "A" [] [.exprStmt (.constStr "doc only")] []]⟩
        = ⟨[.classDef "A" [] [] []]⟩
      ∧ wellFormedModule (remove_comments_docstrings_and_bodies_ast
          ⟨[.classDef "A" [] [.exprStmt (.constStr "doc only")] []]⟩) = false
      ∧ unparseModule (remove_comments_docstrings_and_bodies_ast
          ⟨[.classDef "A" [] [.exprStmt (.constStr "doc only")] []]⟩) = "class A:"
      ∧ remove_comments_docstrings_and_bodies
          (.valid ⟨[.classDef "A" [] [.exprStmt (.constStr "doc only")] []]⟩)
        = .ok (.invalid "class A:")
      ∧ parseText (.invalid "class A:") = .error "SyntaxError: invalid syntax" :=
  ⟨rfl, rfl, rfl, rfl, rfl, rfl⟩

theorem classBody_eq_map (l : List Stmt) :
    FunctionBodyRemover_classBody l
      = l.map (fun c => if isFunctionOrAsync c then FunctionBodyRemover_visit c else c) := by
  induction l with
  | nil => rfl
  | cons s rest ih => simp [FunctionBodyRemover_classBody, ih]

/-- Claim C6: when the body-replacement pass reaches a class definition, the
class body keeps its length and order; an immediate child at position `i`
that is not a function or coroutine definition — a class-level assignment, a
nested class definition, any other statement — comes out exactly as it went
in, while an immediate child that is a function or coroutine definition comes
out with its body replaced by `[pass]` and its name, parameters and
decorators unchanged.  In particular a nested class is untouched by this
pass, its methods' bodies included. -/
theorem c6_class_frame (name : String) (bases : List Expr) (body : List Stmt)
    (decorators : List Expr) (i : Nat) (c : Stmt) (hc : body[i]? = some c) :
    (FunctionBodyRemover_visit (.classDef name bases body decorators)).bodyOf.length
        = body.length
      ∧ (isFunctionOrAsync c = false →
          (FunctionBodyRemover_visit (.classDef name bases body decorators)).bodyOf[i]?
            = some c)
      ∧ (isFunctionOrAsync c = true →
          (FunctionBodyRemover_visit (.classDef name bases body decorators)).bodyOf[i]?
              = some (FunctionBodyRemover_visit c)
            ∧ (FunctionBodyRemover_visit c).bodyOf = [.pass]
            ∧ (FunctionBodyRemover_visit c).nameOf = c.nameOf
            ∧ (FunctionBodyRemover_visit c).argsOf = c.argsOf
            ∧ (FunctionBodyRemover_visit c).decoratorsOf = c.decoratorsOf) := by
  have hmap := classBody_eq_map body
  refine ⟨?_, ?_, ?_⟩
  · simp [FunctionBodyRemover_visit, Stmt.bodyOf, hmap]
  · intro h
    simp [FunctionBodyRemover_visit, Stmt.bodyOf, hmap, List.getElem?_map, hc, h]
  · intro h
    refine ⟨?_, ?_⟩
    · simp [FunctionBodyRemover_visit, Stmt.bodyOf, hmap, List.getElem?_map, hc, h]
    · cases c <;> simp_all [FunctionBodyRemover_visit, Stmt.bodyOf, Stmt.nameOf,
        Stmt.argsOf, Stmt.decoratorsOf, isFunctionOrAsync]

theorem c6_class_frame_witness :
    ((FunctionBodyRemover_visit (.classDef "C" []
        [.assign "x" (.constInt 1),
         .functionDef "m" ["self"] [.exprStmt (.constStr "docm"), .ret (some (.name "x"))] [],
         .classDef "Inner" [] [.functionDef "g" ["self"] [.ret none] []] []] [])).bodyOf[0]?
      = some (.assign "x" (.constInt 1)))
    ∧ ((FunctionBodyRemover_visit (.classDef "C" []
        [.assign "x" (.constInt 1),
         .functionDef "m" ["self"] [.exprStmt (.constStr "docm"), .ret (some (.name "x"))] [],
         .classDef "Inner" [] [.functionDef "g" ["self"] [.ret none] []] []] [])).bodyOf[2]?
      = some (.classDef "Inner" [] [.functionDef "g" ["self"] [.ret none] []] []))
    ∧ ((FunctionBodyRemover_visit (.functionDef "m" ["self"]
        [.exprStmt (.constStr "docm"), .ret (some (.name "x"))] [])).bodyOf = [.pass]) :=
  ⟨(c6_class_frame "C" []
      [.assign "x" (.constInt 1),
       .functionDef "m" ["self"] [.exprStmt (.constStr "docm"), .ret (some (.name "x"))] [],
       .classDef "Inner" [] [.functionDef "g" ["self"] [.ret none] []] []] [] 0
      (.assign "x" (.constInt 1)) rfl).2.1 rfl,
   (c6_class_frame "C" []
      [.assign "x" (.constInt 1),
       .functionDef "m" ["self"] [.exprStmt (.constStr "docm"), .ret (some (.name "x"))] [],
       .classDef "Inner" [] [.functionDef "g" ["self"] [.ret none] []] []] [] 2
      (.classDef "Inner" [] [.functionDef "g" ["self"] [.ret none] []] []) rfl).2.1 rfl,
   ((c6_class_frame "C" []
      [.assign "x" (.constInt 1),
       .functionDef "m" ["self"] [.exprStmt (.constStr "docm"), .ret (some (.name "x"))] [],
       .classDef "Inner" [] [.functionDef "g" ["self"] [.ret none] []] []] [] 1
      (.functionDef "m" ["self"] [.exprStmt (.constStr "docm"), .ret (some (.name "x"))] [])
      rfl).2.2 rfl).2.1⟩

theorem sigsOf_docstring (s : Stmt) (h : isDocstring s = true) : sigsOfStmt s = [] := by
  cases s <;> simp_all [isDocstring, sigsOfStmt]

mutual

theorem sigsOf_remove : (s : Stmt) → sigsOfStmt (remove_docstrings s) = sigsOfStmt s
  | .functionDef name args body decorators => by
      simp only [remove_docstrings, sigsOfStmt]
      rw [sigsList_removeBody body]
  | .asyncFunctionDef name args body decorators => by
      simp only [remove_docstrings, sigsOfStmt]
      rw [sigsList_removeBody body]
  | .classDef name bases body decorators => by
      simp only [remove_docstrings, sigsOfStmt]
      rw [sigsList_removeBody body]
  | .ret _ => rfl
  | .assign _ _ => rfl
  | .exprStmt _ => rfl
  | .ifStmt test body orelse => by
      simp only [remove_docstrings, sigsOfStmt]
      rw [sigsList_removeList body, sigsList_removeList orelse]
  | .pass => rfl

theorem sigsList_removeBody : (l : List Stmt) →
    sigsOfList (removeDocstringsBody l) = sigsOfList l
  | [] => rfl
  | s :: rest => by
      cases hd : isDocstring s with
      | true =>
          simp [removeDocstringsBody, hd, sigsOfList, sigsList_removeList rest,
            sigsOf_docstring s hd]
      | false =>
          simp [removeDocstringsBody, hd, sigsOfList, sigsOf_remove s,
            sigsList_removeList rest]

theorem sigsList_removeList : (l : List Stmt) →
    sigsOfList (removeDocstringsList l) = sigsOfList l
  | [] => rfl
  | s :: rest => by
      simp [removeDocstringsList, sigsOfList, sigsOf_remove s, sigsList_removeList rest]

end

mutual

theorem sigsOf_visit_sublist : (s : Stmt) →
    List.Sublist (sigsOfStmt (FunctionBodyRemover_visit s)) (sigsOfStmt s)
  | .functionDef name args body decorators => by
      simp only [FunctionBodyRemover_visit, sigsOfStmt, sigsOfList, List.nil_append]
      exact List.Sublist.cons₂ _ (List.nil_sublist _)
  | .asyncFunctionDef name args body decorators => by
      simp only [FunctionBodyRemover_visit, sigsOfStmt, sigsOfList, List.nil_append]
      exact List.Sublist.cons₂ _ (List.nil_sublist _)
  | .classDef name bases body decorators => by
      simp only [FunctionBodyRemover_visit, sigsOfStmt]
      exact List.Sublist.cons₂ _ (sigsList_classBody_sublist body)
  | .ret _ => List.Sublist.refl _
  | .assign _ _ => List.Sublist.refl _
  | .exprStmt _ => List.Sublist.refl _
  | .ifStmt test body orelse => by
      simp only [FunctionBodyRemover_visit, sigsOfStmt]
      exact List.Sublist.append (sigsList_visit_sublist body) (sigsList_visit_sublist orelse)
  | .pass => List.Sublist.refl _

theorem sigsList_visit_sublist : (l : List Stmt) →
    List.Sublist (sigsOfList (FunctionBodyRemover_visitList l)) (sigsOfList l)
  | [] => List.Sublist.refl _
  | s :: rest => by
      simp only [FunctionBodyRemover_visitList, sigsOfList]
      exact List.Sublist.append (sigsOf_visit_sublist s) (sigsList_visit_sublist rest)

theorem sigsList_classBody_sublist : (l : List Stmt) →
    List.Sublist (sigsOfList (FunctionBodyRemover_classBody l)) (sigsOfList l)
  | [] => List.Sublist.refl _
  | s :: rest => by
      cases hf : isFunctionOrAsync s with
      | true =>
          simp only [FunctionBodyRemover_classBody, hf, if_pos rfl, sigsOfList]
          exact List.Sublist.append (sigsOf_visit_sublist s) (sigsList_classBody_sublist rest)
      | false =>
          simp only [FunctionBodyRemover_classBody, hf, Bool.false_eq_true, if_false,
            sigsOfList]
          exact List.Sublist.append (List.Sublist.refl _) (sigsList_classBody_sublist rest)

end

/-- Claim C7: every definition signature — kind, function or class name,
parameter list, base list, decorator list — present in the transform's output
is one of the input's signatures, unchanged and in the input's order
(docstring removal preserves the signature list exactly; body replacement can
only drop the signatures of definitions nested inside replaced function
bodies, never alter one). -/
theorem c7_signatures_preserved (m : PyModule) :
    List.Sublist (moduleSigs (remove_comments_docstrings_and_bodies_ast m)) (moduleSigs m)
      ∧ moduleSigs (removeDocstringsModule m) = moduleSigs m := by
  constructor
  · simp only [moduleSigs, remove_comments_docstrings_and_bodies_ast,
      FunctionBodyRemoverModule, removeDocstringsModule]
    have h1 := sigsList_visit_sublist (removeDocstringsBody m.body)
    rw [sigsList_removeBody m.body] at h1
    exact h1
  · simp only [moduleSigs, removeDocstringsModule]
    exact sigsList_removeBody m.body

/-- Claim C8 (counterexample): the claim's exit code is wrong for
`files_only.py`.  Invoked with no arguments at all, its `argparse` parser
reports the missing required `directory` positional by printing the usage
message and exiting with status code 2 — not 1. -/
theorem c8_counterexample_argparse_exits_two :
    files_only_parse_args [] = .usageExit files_only_usage 2
      ∧ files_only_parse_args [] ≠ .usageExit files_only_usage 1
      ∧ (2 : Nat) ≠ 1 := by
  refine ⟨rfl, by decide, by decide⟩

/-- Claim C8 (amended): with no directory argument supplied, each flattener
script prints a usage message and exits with a nonzero status — `app.py`
(which checks `len(sys.argv) < 2` itself) with code 1, `files_only.py`
(which delegates to `argparse`) with code 2. -/
theorem c8_amended_usage_exit_codes (argv args : List String)
    (h1 : argv.length < 2)
    (h2 : args.filter (fun a => !isIncludeTestsFlag a) = []) :
    app_main_args argv = .usageExit "Usage: python script.py <directory-path>" 1
      ∧ files_only_parse_args args = .usageExit files_only_usage 2 := by
  constructor
  · simp [app_main_args, h1]
  · simp [files_only_parse_args, h2]

theorem c8_amended_usage_exit_codes_witness :
    (["app.py"] : List String).length < 2
      ∧ ((["-t"] : List String).filter (fun a => !isIncludeTestsFlag a) = [])
      ∧ (app_main_args ["app.py"]
          = .usageExit "Usage: python script.py <directory-path>" 1
        ∧ files_only_parse_args ["-t"] = .usageExit files_only_usage 2) :=
  ⟨by decide, rfl, c8_amended_usage_exit_codes ["app.py"] ["-t"] (by decide) rfl⟩

theorem collectFiles_no_output_file (p : List String) (it : Bool)
    (fs : List (String × String)) :
    (collectFiles p it fs).all (fun sec => !(sec.fname == "codebase_content.txt")) = true := by
  induction fs with
  | nil => rfl
  | cons f rest ih =>
      obtain ⟨fname, content⟩ := f
      cases hk : keepFile it fname with
      | true =>
          have hne : fname ≠ "codebase_content.txt" := by
            simp [keepFile] at hk
            exact hk.2
          simp [collectFiles, hk, List.all_cons, hne, ih]
      | false => simp [collectFiles, hk, ih]

mutual

theorem walkDir_no_output_file : (p : List String) → (it : Bool) → (t : DirTree) →
    (walkDir p it t).all (fun sec => !(sec.fname == "codebase_content.txt")) = true
  | p, it, .dir files subdirs => by
      simp only [walkDir, List.all_append, Bool.and_eq_true]
      exact ⟨collectFiles_no_output_file p it files,
        walkSubdirs_no_output_file p it subdirs⟩

theorem walkSubdirs_no_output_file : (p : List String) → (it : Bool) →
    (l : List (String × DirTree)) →
    (walkSubdirs p it l).all (fun sec => !(sec.fname == "codebase_content.txt")) = true
  | p, it, [] => rfl
  | p, it, (dname, t) :: rest => by
      simp only [walkSubdirs, List.all_append, Bool.and_eq_true]
      refine ⟨?_, walkSubdirs_no_output_file p it rest⟩
      cases hk : keepDir it dname with
      | true =>
          simp only [hk, if_pos rfl]
          exact walkDir_no_output_file (p ++ [dname]) it t
      | false => simp [hk]

end

/-- Claim C9: the directory walk of `files_only.extract_codebase_content`
never collects a file named exactly `codebase_content.txt`, whatever the
directory tree and whichever value the include-tests flag has: the tool
unconditionally excludes its own output filename from the artifact. -/
theorem c9_own_output_excluded (root : DirTree) (includeTests : Bool) :
    (walkDir [] includeTests root).all
      (fun sec => !(sec.fname == "codebase_content.txt")) = true :=
  walkDir_no_output_file [] includeTests root
